import Mathlib

/-!
Verification of the transcription tool's formatting, batching, discovery and
output-path logic, shallowly embedded from the Python sources
(`src/formatters.py`, `src/file_processor.py`, `src/config.py`).

Seconds values are embedded as exact rationals; where a claim depends on the
IEEE-754 double actually passed at runtime, the exact rational value of that
double is used as the input.
-/

attribute [local semireducible] Rat.add Rat.mul Rat.inv Rat.sub Rat.ofScientific
attribute [local semireducible] List.merge List.mergeSort

/-- Zero-pad an integer to width 2, as Python `f"{z:02d}"` does for the
values that occur here. -/
def pad2 (z : ℤ) : String :=
  if 0 ≤ z ∧ z < 10 then "0" ++ toString z else toString z

/-- Zero-pad an integer to width 3, as Python `f"{z:03d}"` does for the
values that occur here. -/
def pad3 (z : ℤ) : String :=
  if 0 ≤ z ∧ z < 10 then "00" ++ toString z
  else if 0 ≤ z ∧ z < 100 then "0" ++ toString z
  else toString z

/-- Python's float modulo (sign of the divisor): `a % b = a - b * floor (a / b)`. -/
def pymod (a b : ℚ) : ℚ := a - b * ⌊a / b⌋

/-- Embedding of `OutputFormatter._format_srt_time`:
`hours = int(seconds // 3600)`, `minutes = int((seconds % 3600) // 60)`,
`secs = int(seconds % 60)`, `milliseconds = int((seconds % 1) * 1000)`,
rendered as `HH:MM:SS,mmm`. -/
def formatSrtTime (seconds : ℚ) : String :=
  pad2 ⌊seconds / 3600⌋ ++ ":" ++ pad2 ⌊pymod seconds 3600 / 60⌋ ++ ":" ++
    pad2 ⌊pymod seconds 60⌋ ++ "," ++ pad3 ⌊pymod seconds 1 * 1000⌋

/-- Embedding of `OutputFormatter._format_vtt_time`: same decomposition as the
SRT variant, rendered as `HH:MM:SS.mmm`. -/
def formatVttTime (seconds : ℚ) : String :=
  pad2 ⌊seconds / 3600⌋ ++ ":" ++ pad2 ⌊pymod seconds 3600 / 60⌋ ++ ":" ++
    pad2 ⌊pymod seconds 60⌋ ++ "." ++ pad3 ⌊pymod seconds 1 * 1000⌋

/-- Python `str.strip()` on the leading/trailing ASCII whitespace that occurs
in transcripts. -/
def pyStrip (s : String) : String :=
  String.mk (((s.data.dropWhile Char.isWhitespace).reverse.dropWhile Char.isWhitespace).reverse)

/-- Round a rational to 2 decimal places, ties to even, as Python `f"{x:.2f}"`
does (its argument values here are exactly representable). Returns the number
of hundredths. -/
def round2 (q : ℚ) : ℤ :=
  let x := q * 100
  let f := ⌊x⌋
  let r := x - (f : ℚ)
  if r < 1 / 2 then f else if 1 / 2 < r then f + 1 else if f % 2 = 0 then f else f + 1

/-- Render a nonnegative rational with two decimal places, as Python
`f"{x:.2f}"` does for the values that occur here. -/
def pyFixed2 (q : ℚ) : String :=
  let n := round2 q
  toString (n / 100) ++ "." ++ (if n % 100 < 10 then "0" ++ toString (n % 100) else toString (n % 100))

/-- A segment dict from the model boundary, restricted to the keys the
formatters read; a `none` field models an absent key. -/
structure Segment where
  start : Option ℚ
  «end» : Option ℚ
  text : Option String
deriving DecidableEq

/-- The metadata dict attached by `WhisperTranscriber.transcribe_file`;
a `none` field models an absent key. -/
structure MetadataD where
  file_path : Option String
  file_size : Option ℤ
  model : Option String
  language : Option String
  duration : Option ℚ
deriving DecidableEq

/-- A dict-shaped transcription result as consumed by `OutputFormatter`;
a `none` field models an absent key. -/
structure ResultD where
  text : Option String
  language : Option String
  segments : Option (List Segment)
  metadata : Option MetadataD
  generated_at : Option String
deriving DecidableEq

def emptyMetadata : MetadataD := ⟨none, none, none, none, none⟩

def emptyResult : ResultD := ⟨none, none, none, none, none⟩

/-- One line of the markdown `Segments` section:
`**{i}.** [{start:.2f}s - {end:.2f}s] {text}\n\n`. -/
def mdSegmentLine (i : ℕ) (seg : Segment) : String :=
  "**" ++ toString i ++ ".** [" ++ pyFixed2 (seg.start.getD 0) ++ "s - " ++
    pyFixed2 (seg.«end».getD 0) ++ "s] " ++ pyStrip (seg.text.getD "") ++ "\n\n"

/-- Embedding of `OutputFormatter.format_markdown`; `now` is the value of
`datetime.now().isoformat()` at formatting time. -/
def formatMarkdown (result : ResultD) (now : String) : String :=
  let metadata := result.metadata.getD emptyMetadata
  let text := pyStrip (result.text.getD "")
  let content :=
    "# Transcription\n\n**File:** " ++ metadata.file_path.getD "Unknown" ++
      "\n**Model:** " ++ metadata.model.getD "Unknown" ++
      "\n**Language:** " ++ metadata.language.getD "Unknown" ++
      "\n**Duration:** " ++ pyFixed2 (metadata.duration.getD 0) ++ " seconds\n**Generated:** " ++
      now ++ "\n\n## Content\n\n" ++ text ++ "\n"
  let segments := result.segments.getD []
  if segments = [] then content
  else content ++ "\n## Segments\n\n" ++
    String.join (segments.enum.map (fun p => mdSegmentLine (p.1 + 1) p.2))

/-- Embedding of `OutputFormatter.format_text`. -/
def formatText (result : ResultD) (now : String) : String :=
  let text := pyStrip (result.text.getD "")
  let metadata := result.metadata.getD emptyMetadata
  "Transcription of: " ++ metadata.file_path.getD "Unknown" ++
    "\nModel: " ++ metadata.model.getD "Unknown" ++
    "\nLanguage: " ++ metadata.language.getD "Unknown" ++
    "\nDuration: " ++ pyFixed2 (metadata.duration.getD 0) ++ " seconds\nGenerated: " ++ now ++
    "\n\n" ++ String.mk (List.replicate 50 '=') ++ "\n\n" ++ text

/-- A Python/JSON value, distinguishing ints from floats as `json.dumps`
renders them differently. -/
inductive PyJson where
  | null
  | bool (b : Bool)
  | str (s : String)
  | intNum (n : ℤ)
  | floatNum (q : ℚ)
  | arr (xs : List PyJson)
  | obj (fields : List (String × PyJson))

/-- A dict entry for a key that may be absent. -/
def optEntry (k : String) (v : Option PyJson) : List (String × PyJson) :=
  match v with
  | none => []
  | some j => [(k, j)]

def segToJson (s : Segment) : PyJson :=
  .obj (optEntry "start" (s.start.map .floatNum) ++ optEntry "end" (s.«end».map .floatNum) ++
    optEntry "text" (s.text.map .str))

def metaToJson (m : MetadataD) : PyJson :=
  .obj (optEntry "file_path" (m.file_path.map .str) ++
    optEntry "file_size" (m.file_size.map .intNum) ++
    optEntry "model" (m.model.map .str) ++
    optEntry "language" (m.language.map .str) ++
    optEntry "duration" (m.duration.map .floatNum))

/-- The JSON value `json.dumps` receives in `format_json`: the result dict
with its present keys in insertion order. -/
def resultToJson (r : ResultD) : PyJson :=
  .obj (optEntry "text" (r.text.map .str) ++
    optEntry "language" (r.language.map .str) ++
    optEntry "segments" (r.segments.map (fun segs => .arr (segs.map segToJson))) ++
    optEntry "metadata" (r.metadata.map metaToJson) ++
    optEntry "generated_at" (r.generated_at.map .str))

def asStr : PyJson → Option String
  | .str s => some s
  | _ => none

def asFloat : PyJson → Option ℚ
  | .floatNum q => some q
  | .intNum n => some (n : ℚ)
  | _ => none

def asInt : PyJson → Option ℤ
  | .intNum n => some n
  | _ => none

def jsonToSeg : PyJson → Option Segment
  | .obj fs =>
      some ⟨(fs.lookup "start").bind asFloat, (fs.lookup "end").bind asFloat,
        (fs.lookup "text").bind asStr⟩
  | _ => none

def jsonToSegList : List PyJson → Option (List Segment)
  | [] => some []
  | j :: rest =>
      match jsonToSeg j, jsonToSegList rest with
      | some s, some ss => some (s :: ss)
      | _, _ => none

def jsonToMeta : PyJson → Option MetadataD
  | .obj fs =>
      some ⟨(fs.lookup "file_path").bind asStr, (fs.lookup "file_size").bind asInt,
        (fs.lookup "model").bind asStr, (fs.lookup "language").bind asStr,
        (fs.lookup "duration").bind asFloat⟩
  | _ => none

/-- Parse a JSON value back into a dict-shaped transcription result. -/
def jsonToResult : PyJson → Option ResultD
  | .obj fs =>
      let segs : Option (Option (List Segment)) :=
        match fs.lookup "segments" with
        | none => some none
        | some (.arr xs) => (jsonToSegList xs).map some
        | some _ => none
      let md : Option (Option MetadataD) :=
        match fs.lookup "metadata" with
        | none => some none
        | some j => (jsonToMeta j).map some
      match segs, md with
      | some s, some m =>
          some ⟨(fs.lookup "text").bind asStr, (fs.lookup "language").bind asStr, s, m,
            (fs.lookup "generated_at").bind asStr⟩
      | _, _ => none
  | _ => none

def jsonKeys : PyJson → List String
  | .obj fs => fs.map Prod.fst
  | _ => []

/-- Embedding of `OutputFormatter.format_json`: it first executes
`result['generated_at'] = datetime.now().isoformat()`, mutating its argument,
then serializes the mutated dict.  Returns the serialized value and the
post-call state of the argument. -/
def formatJsonRun (result : ResultD) (now : String) : PyJson × ResultD :=
  let post := { result with generated_at := some now }
  (resultToJson post, post)

/-- `result.get('metadata', {}).get('duration', d)`. -/
def metaDuration (r : ResultD) (d : ℚ) : ℚ :=
  ((r.metadata.getD emptyMetadata).duration).getD d

/-- One SRT cue: `{i}\n{start} --> {end}\n{text}\n\n`. -/
def srtCue (i : ℕ) (seg : Segment) : String :=
  toString i ++ "\n" ++ formatSrtTime (seg.start.getD 0) ++ " --> " ++
    formatSrtTime (seg.«end».getD 0) ++ "\n" ++ pyStrip (seg.text.getD "") ++ "\n\n"

/-- Embedding of `OutputFormatter.format_srt`. -/
def formatSrt (result : ResultD) : String :=
  let segments := result.segments.getD []
  if segments = [] then
    "1\n00:00:00,000 --> " ++ formatSrtTime (metaDuration result 30) ++ "\n" ++
      pyStrip (result.text.getD "") ++ "\n\n"
  else
    String.join (segments.enum.map (fun p => srtCue (p.1 + 1) p.2))

/-- One VTT cue: `{start} --> {end}\n{text}\n\n` — no index line. -/
def vttCue (seg : Segment) : String :=
  formatVttTime (seg.start.getD 0) ++ " --> " ++ formatVttTime (seg.«end».getD 0) ++ "\n" ++
    pyStrip (seg.text.getD "") ++ "\n\n"

/-- Embedding of `OutputFormatter.format_vtt`. -/
def formatVtt (result : ResultD) : String :=
  let segments := result.segments.getD []
  "WEBVTT\n\n" ++
    (if segments = [] then
      "00:00:00.000 --> " ++ formatVttTime (metaDuration result 30) ++ "\n" ++
        pyStrip (result.text.getD "") ++ "\n\n"
    else String.join (segments.map vttCue))

/-- The output of one `format_result` call: a rendered string for the four
text formats, or the JSON value handed to `json.dumps` (an external library
call) for the `json` tag. -/
inductive OutDoc where
  | textDoc (s : String)
  | jsonDoc (j : PyJson)

/-- Embedding of `OutputFormatter.format_result`: dispatches on the format
tag, returns `none` (the `ValueError`) for an unsupported tag, and also
returns the post-call state of the `result` argument, which only the `json`
branch mutates. -/
def formatResultRun (result : ResultD) (now : String) (output_format : String) :
    Option (OutDoc × ResultD) :=
  if output_format = "md" then some (.textDoc (formatMarkdown result now), result)
  else if output_format = "txt" then some (.textDoc (formatText result now), result)
  else if output_format = "json" then
    some (.jsonDoc (formatJsonRun result now).1, (formatJsonRun result now).2)
  else if output_format = "srt" then some (.textDoc (formatSrt result), result)
  else if output_format = "vtt" then some (.textDoc (formatVtt result), result)
  else none

/-- Modelled from the spec/claim wording for C2 only: VTT output as `WEBVTT`,
a blank line, then cues of *identical structure to SRT* — index line,
time-range line with dot-separated milliseconds, text, blank line. -/
def vttClaimC2 (result : ResultD) : String :=
  "WEBVTT\n\n" ++
    String.join ((result.segments.getD []).enum.map (fun p =>
      toString (p.1 + 1) ++ "\n" ++ formatVttTime (p.2.start.getD 0) ++ " --> " ++
        formatVttTime (p.2.«end».getD 0) ++ "\n" ++ pyStrip (p.2.text.getD "") ++ "\n\n"))

/-- The sample result of the repository's formatter tests. -/
def sampleResult : ResultD :=
  ⟨some "Hello, this is a test transcription.", some "en",
    some [⟨some 0, some 2.5, some "Hello, this is a test"⟩,
      ⟨some 2.5, some 5, some " transcription."⟩],
    some ⟨some "/path/to/audio.mp3", some 1024000, some "base", some "en", some 5⟩, none⟩

/-- Result with no segments and `metadata.duration = 10.0`, as in the
repository's `test_format_srt_no_segments`. -/
def sampleNoSegments : ResultD :=
  ⟨some "Single line transcription", none, none, some ⟨none, none, none, none, some 10⟩, none⟩

/-- A result with exactly one segment. -/
def sampleOneSegment : ResultD :=
  ⟨some "Hello", some "en", some [⟨some 0, some 2.5, some "Hello"⟩], none, none⟩

/-- C2 counterexample: the claim says VTT cues have structure identical to SRT
(including the 1-based index line).  `format_vtt` emits no index line: at a
one-segment result the actual VTT output lacks the `1` line that the claimed
structure (`vttClaimC2`) contains, while the SRT output has it. -/
theorem c2_counterexample_vtt_has_no_index_line :
    formatVtt sampleOneSegment = "WEBVTT\n\n00:00:00.000 --> 00:00:02.500\nHello\n\n" ∧
    vttClaimC2 sampleOneSegment = "WEBVTT\n\n1\n00:00:00.000 --> 00:00:02.500\nHello\n\n" ∧
    formatSrt sampleOneSegment = "1\n00:00:00,000 --> 00:00:02,500\nHello\n\n" ∧
    formatVtt sampleOneSegment ≠ vttClaimC2 sampleOneSegment := by
  refine ⟨by decide, by decide, by decide, by decide⟩

/-- Code-point lexicographic comparison of two strings given as char lists —
Python's `str` ordering, used by `sorted()` on paths. -/
def charListLe : List Char → List Char → Bool
  | c :: cs, d :: ds => if c < d then true else if d < c then false else charListLe cs ds
  | [], _ => true
  | _, [] => false

/-- A path, as its list of components; `str(path)` joins them with `/`. -/
def pathKey (p : List String) : String := String.intercalate "/" p

/-- Path ordering used by `sorted(audio_files)`: lexicographic on the joined
path string. -/
def pathLe (p q : List String) : Bool := charListLe (pathKey p).data (pathKey q).data

/-- Index of the last `.` in a file name, if any. -/
def lastDotIdx (cs : List Char) : Option ℕ :=
  match cs.reverse.findIdx? (fun c => c == '.') with
  | none => none
  | some j => some (cs.length - 1 - j)

/-- Python `PurePath.suffix`: the final `.`-suffix of the name, empty when the
last dot is at position 0 (hidden file) or at the very end. -/
def pySuffix (name : String) : String :=
  match lastDotIdx name.data with
  | none => ""
  | some i => if 0 < i ∧ i + 1 < name.data.length then String.mk (name.data.drop i) else ""

/-- Python `PurePath.stem`: the name with its suffix removed. -/
def pyStem (name : String) : String :=
  match lastDotIdx name.data with
  | none => name
  | some i => if 0 < i ∧ i + 1 < name.data.length then String.mk (name.data.take i) else name

/-- Python `str.lower()` restricted to the ASCII range that file extensions
use. -/
def pyLower (s : String) : String := String.mk (s.data.map Char.toLower)

/-- `TranscriptionConfig.supported_extensions`. -/
def supportedExtensions : List String :=
  [".mp3", ".wav", ".m4a", ".flac", ".ogg", ".wma", ".aac", ".mp4", ".mkv", ".avi"]

/-- Embedding of `AudioFileProcessor._is_audio_file` applied to a file name:
`path.suffix.lower() in supported_extensions`. -/
def isAudioName (name : String) : Bool :=
  supportedExtensions.contains (pyLower (pySuffix name))

/-- The configuration fields `AudioFileProcessor` reads; paths are component
lists, optional fields model `None`. -/
structure TranscriptionConfig where
  audio_file : Option (List String)
  audio_folder : Option (List String)
  transcribe_folder : Option (List String)
  transcription_file : Option (List String)
  recursive : Bool
  batch_size : ℕ

/-- The `format_extensions` dict of `_get_extension_for_format`. -/
def format_extensions : List (String × String) :=
  [("md", "md"), ("txt", "txt"), ("json", "json"), ("srt", "srt"), ("vtt", "vtt")]

/-- Embedding of `AudioFileProcessor._get_extension_for_format`:
dict lookup with default `txt`. -/
def getExtensionForFormat (output_format : String) : String :=
  (format_extensions.lookup output_format).getD "txt"

/-- Embedding of `AudioFileProcessor.get_output_path`. -/
def getOutputPath (config : TranscriptionConfig) (audio_path : List String)
    (output_format : String) : List String :=
  if config.transcription_file.isSome && config.audio_file.isSome then
    config.transcription_file.getD []
  else
    let base_name := pyStem (audio_path.getLastD "")
    let extension := getExtensionForFormat output_format
    let output_filename := base_name ++ "_transcription." ++ extension
    match config.transcribe_folder with
    | some folder => folder ++ [output_filename]
    | none => audio_path.dropLast ++ [output_filename]

/-- A directory tree entry: a plain file or a directory with children. -/
inductive FSEntry where
  | file (name : String)
  | dir (name : String) (children : List FSEntry)

/-- `folder.glob("*")`: the immediate children, as relative component paths
paired with whether the entry is a plain file. -/
def listChildren (children : List FSEntry) : List (List String × Bool) :=
  children.map (fun e =>
    match e with
    | .file n => ([n], true)
    | .dir n _ => ([n], false))

/-- `folder.glob("**/*")`: every descendant, as a relative component path
paired with whether the entry is a plain file. -/
def listDescendants : List FSEntry → List (List String × Bool)
  | [] => []
  | .file n :: rest => ([n], true) :: listDescendants rest
  | .dir n cs :: rest =>
      ([n], false) ::
        ((listDescendants cs).map (fun e => (n :: e.1, e.2)) ++ listDescendants rest)

/-- Whether the relative component path `p` names a plain file in the tree. -/
def isFileAt : List FSEntry → List String → Bool
  | [], _ => false
  | .file m :: rest, p => (p == [m]) || isFileAt rest p
  | .dir m cs :: rest, p =>
      (match p with
       | n :: q :: qs => (m == n) && isFileAt cs (q :: qs)
       | _ => false) || isFileAt rest p

/-- Embedding of `AudioFileProcessor._find_audio_files`: glob with `**/*` or
`*` per the recursive flag, keep plain files whose lowercased suffix is a
recognized audio extension, and sort. -/
def findAudioFiles (children : List FSEntry) (recursive : Bool) : List (List String) :=
  let entries := if recursive then listDescendants children else listChildren children
  ((entries.filter (fun e => e.2 && isAudioName (e.1.getLastD ""))).map Prod.fst).mergeSort pathLe

/-- The directory of the spec's discovery example: `a.mp3`, `b.wav`, `c.txt`,
and `sub/d.m4a`. -/
def exampleTree : List FSEntry :=
  [.file "a.mp3", .file "b.wav", .file "c.txt", .dir "sub" [.file "d.m4a"]]

/-- Fuel-driven version of the slicing loop
`for i in range(0, len(files), batch_size): yield files[i:i + batch_size]`;
the fuel is immaterial whenever it is at least `files.length` and
`batch_size ≥ 1`. -/
def sliceChunks {α : Type} : ℕ → List α → ℕ → List (List α)
  | 0, _, _ => []
  | _, [], _ => []
  | fuel + 1, files, batch_size =>
      files.take batch_size :: sliceChunks fuel (files.drop batch_size) batch_size

/-- Embedding of `AudioFileProcessor.batch_files` (the generator, run to a
list). -/
def batchFiles {α : Type} (files : List α) (batch_size : ℕ) : List (List α) :=
  sliceChunks files.length files batch_size

/-- Configuration with a single audio file and an explicit output file. -/
def cfgSingle : TranscriptionConfig :=
  ⟨some ["a.mp3"], none, some ["outdir"], some ["given", "out.txt"], false, 1⟩

/-- Configuration with an audio folder and an output folder. -/
def cfgFolder : TranscriptionConfig :=
  ⟨none, some ["music"], some ["outdir"], none, true, 2⟩

theorem floor_div_rat (q : ℚ) (n : ℤ) (hn : 0 < n) : ⌊q / (n : ℚ)⌋ = ⌊q⌋ / n := by
  have hn' : (0 : ℚ) < (n : ℚ) := by exact_mod_cast hn
  apply le_antisymm
  · rw [Int.le_ediv_iff_mul_le hn, Int.le_floor]
    push_cast
    rw [← le_div_iff₀ hn']
    exact Int.floor_le (q / (n : ℚ))
  · rw [Int.le_floor]
    rw [le_div_iff₀ hn']
    have h1 : ((⌊q⌋ / n : ℤ) : ℚ) * (n : ℚ) = ((⌊q⌋ / n * n : ℤ) : ℚ) := by push_cast; ring
    rw [h1]
    calc ((⌊q⌋ / n * n : ℤ) : ℚ) ≤ ((⌊q⌋ : ℤ) : ℚ) := by
          exact_mod_cast Int.ediv_mul_le ⌊q⌋ (ne_of_gt hn)
      _ ≤ q := Int.floor_le q

theorem pymod_floor_minutes (s : ℚ) : ⌊pymod s 3600 / 60⌋ = ⌊s / 60⌋ % 60 := by
  have h1 : pymod s 3600 / 60 = s / 60 - ((60 * ⌊s / 3600⌋ : ℤ) : ℚ) := by
    unfold pymod; push_cast; ring
  rw [h1, Int.floor_sub_int]
  have h2 : s / 3600 = s / 60 / 60 := by ring
  have h3 : ⌊s / 3600⌋ = ⌊s / 60⌋ / 60 := by
    rw [h2]
    have h4 : (60 : ℚ) = ((60 : ℤ) : ℚ) := by norm_num
    rw [show s / 60 / 60 = s / 60 / ((60 : ℤ) : ℚ) by rw [← h4]]
    exact floor_div_rat (s / 60) 60 (by norm_num)
  rw [h3, Int.emod_def]

theorem pymod_floor_secs (s : ℚ) : ⌊pymod s 60⌋ = ⌊s⌋ % 60 := by
  have h1 : pymod s 60 = s - ((60 * ⌊s / 60⌋ : ℤ) : ℚ) := by
    unfold pymod; push_cast; ring
  rw [h1, Int.floor_sub_int]
  have h3 : ⌊s / 60⌋ = ⌊s⌋ / 60 := by
    have h4 : (60 : ℚ) = ((60 : ℤ) : ℚ) := by norm_num
    rw [show s / 60 = s / ((60 : ℤ) : ℚ) by rw [← h4]]
    exact floor_div_rat s 60 (by norm_num)
  rw [h3, Int.emod_def]

theorem pymod_one_fract (s : ℚ) : pymod s 1 = Int.fract s := by
  unfold pymod
  rw [div_one, Int.fract]
  ring

/-- C1: for every number of seconds, the SRT and VTT time-code formatters
render the decomposition hours = floor(s / 3600) (unbounded), minutes =
floor((s mod 3600) / 60) = floor(s / 60) mod 60, whole seconds =
floor(s mod 60) = floor(s) mod 60, and milliseconds = the fractional part
times 1000 truncated, padded to widths 2/2/2/3, differing only in the
comma/dot separator.  Over exact arithmetic 61123/1000 renders as
"00:01:01,123" as the claim and the repository's own test demand; but the
IEEE-754 double nearest 61.123 — the value Python actually passes — is
8602297500742713/140737488355328 = 61.122999999999997..., and exact
evaluation of the code's arithmetic at that value yields "00:01:01,122",
so `_format_srt_time(61.123)` returns "00:01:01,122" and the shipped test
asserting "00:01:01,123" fails. -/
theorem c1_timecode_decomposition_and_float_divergence :
    (∀ s : ℚ,
      formatSrtTime s =
        pad2 ⌊s / 3600⌋ ++ ":" ++ pad2 (⌊s / 60⌋ % 60) ++ ":" ++ pad2 (⌊s⌋ % 60) ++ "," ++
          pad3 ⌊Int.fract s * 1000⌋ ∧
      formatVttTime s =
        pad2 ⌊s / 3600⌋ ++ ":" ++ pad2 (⌊s / 60⌋ % 60) ++ ":" ++ pad2 (⌊s⌋ % 60) ++ "." ++
          pad3 ⌊Int.fract s * 1000⌋) ∧
    formatSrtTime (61123 / 1000) = "00:01:01,123" ∧
    formatSrtTime (8602297500742713 / 140737488355328) = "00:01:01,122" ∧
    formatVttTime (8602297500742713 / 140737488355328) = "00:01:01.122" ∧
    formatSrtTime (3661999 / 1000) = "01:01:01,999" ∧
    formatSrtTime 0 = "00:00:00,000" := by
  refine ⟨fun s => ⟨?_, ?_⟩, by decide, by decide, by decide, by decide, by decide⟩
  · unfold formatSrtTime
    rw [pymod_floor_minutes, pymod_floor_secs, pymod_one_fract]
  · unfold formatVttTime
    rw [pymod_floor_minutes, pymod_floor_secs, pymod_one_fract]

theorem jsonToSeg_segToJson (s : Segment) : jsonToSeg (segToJson s) = some s := by
  rcases s with ⟨a, b, c⟩
  rcases a <;> rcases b <;> rcases c <;> rfl

theorem jsonToMeta_metaToJson (m : MetadataD) : jsonToMeta (metaToJson m) = some m := by
  rcases m with ⟨a, b, c, d, e⟩
  rcases a <;> rcases b <;> rcases c <;> rcases d <;> rcases e <;> rfl

theorem jsonToSegList_map (ss : List Segment) :
    jsonToSegList (ss.map segToJson) = some ss := by
  induction ss with
  | nil => rfl
  | cons s rest ih => simp [jsonToSegList, jsonToSeg_segToJson, ih]

theorem jsonToResult_resultToJson (r : ResultD) : jsonToResult (resultToJson r) = some r := by
  rcases r with ⟨t, l, segs, md, g⟩
  rcases t <;> rcases l <;> rcases segs <;> rcases md <;> rcases g <;>
    simp +decide [resultToJson, jsonToResult, optEntry, List.lookup,
      jsonToSegList_map, jsonToMeta_metaToJson, asStr]

/-- C2 amended: for a result with at least one segment the VTT output is the
literal `WEBVTT` line, a blank line, then one cue per segment in segment
order, where each cue is the dot-separated time-range line, the trimmed
segment text, and a blank line — the same as the SRT cues except that the
index line is absent and milliseconds use a dot. -/
theorem c2_amended_vtt_structure (r : ResultD) (segs : List Segment)
    (hsegs : r.segments = some segs) (hne : segs ≠ []) :
    formatVtt r = "WEBVTT\n\n" ++ String.join (segs.map vttCue) ∧
    formatSrt r = String.join (segs.enum.map (fun p => srtCue (p.1 + 1) p.2)) ∧
    (∀ seg : Segment, vttCue seg =
      formatVttTime (seg.start.getD 0) ++ " --> " ++ formatVttTime (seg.«end».getD 0) ++ "\n" ++
        pyStrip (seg.text.getD "") ++ "\n\n") := by
  refine ⟨?_, ?_, fun seg => rfl⟩
  · simp [formatVtt, hsegs, hne]
  · simp [formatSrt, hsegs, hne]

theorem c2_amended_witness :
    sampleOneSegment.segments = some [⟨some 0, some 2.5, some "Hello"⟩] ∧
    (([⟨some 0, some 2.5, some "Hello"⟩] : List Segment) ≠ []) ∧
    formatVtt sampleOneSegment =
      "WEBVTT\n\n" ++ String.join (([⟨some 0, some 2.5, some "Hello"⟩] : List Segment).map vttCue) :=
  ⟨rfl, by decide, (c2_amended_vtt_structure sampleOneSegment _ rfl (by decide)).1⟩

/-- C3 counterexample: `format_result` with the `json` tag does not leave its
input unchanged — `format_json` executes `result['generated_at'] = ...` on the
argument itself, so the post-call state differs from the input. -/
theorem c3_counterexample_json_mutates_input :
    (formatResultRun sampleResult "2024-06-01T00:00:00" "json").map (fun p => p.2) ≠
      some sampleResult := by decide

/-- C3 amended: `format_result` leaves the input unchanged for the `md`,
`txt`, `srt` and `vtt` tags; for the `json` tag it mutates the input by
setting its `generated_at` key to the formatting timestamp, leaving every
other field unchanged. -/
theorem c3_amended_only_json_mutates (r : ResultD) (now fmt : String)
    (h : fmt = "md" ∨ fmt = "txt" ∨ fmt = "json" ∨ fmt = "srt" ∨ fmt = "vtt") :
    (formatResultRun r now fmt).map (fun p => p.2) =
      some (if fmt = "json" then { r with generated_at := some now } else r) := by
  rcases h with h | h | h | h | h <;> subst h <;>
    simp +decide [formatResultRun, formatJsonRun]

theorem c3_amended_witness :
    ("srt" = "md" ∨ "srt" = "txt" ∨ "srt" = "json" ∨ "srt" = "srt" ∨ "srt" = "vtt") ∧
    (formatResultRun sampleResult "t" "srt").map (fun p => p.2) =
      some (if "srt" = "json" then { sampleResult with generated_at := some "t" } else sampleResult) :=
  ⟨by decide, c3_amended_only_json_mutates sampleResult "t" "srt" (by decide)⟩

/-- C4: parsing the serialized JSON value reproduces every field of the input
result and adds exactly the key `generated_at` holding the formatting
timestamp (the serialized dict is the mutated input, whose key list is the
input's key list extended by `generated_at`). -/
theorem c4_json_roundtrip_adds_generated_at (r : ResultD) (now : String)
    (h : r.generated_at = none) :
    jsonToResult (formatJsonRun r now).1 = some { r with generated_at := some now } ∧
    jsonKeys (formatJsonRun r now).1 = jsonKeys (resultToJson r) ++ ["generated_at"] ∧
    ({ r with generated_at := some now } : ResultD).text = r.text ∧
    ({ r with generated_at := some now } : ResultD).language = r.language ∧
    ({ r with generated_at := some now } : ResultD).segments = r.segments ∧
    ({ r with generated_at := some now } : ResultD).metadata = r.metadata ∧
    ({ r with generated_at := some now } : ResultD).generated_at = some now := by
  refine ⟨jsonToResult_resultToJson _, ?_, rfl, rfl, rfl, rfl, rfl⟩
  rcases r with ⟨t, l, segs, md, g⟩
  simp only [ResultD.mk.injEq] at h ⊢
  cases g with
  | some gv => exact absurd h (by simp)
  | none => simp [formatJsonRun, resultToJson, jsonKeys, optEntry, List.map_append]

theorem c4_witness :
    sampleResult.generated_at = none ∧
    jsonToResult (formatJsonRun sampleResult "2024-06-01T00:00:00").1 =
      some { sampleResult with generated_at := some "2024-06-01T00:00:00" } :=
  ⟨rfl, (c4_json_roundtrip_adds_generated_at sampleResult "2024-06-01T00:00:00" rfl).1⟩

/-- C5: with no segments (key absent or empty list), SRT and VTT synthesize a
single cue from time zero to the formatted `metadata.duration` (30 when
absent) containing the trimmed full text; for `duration = 10.0` the SRT range
is `00:00:00,000 --> 00:00:10,000`. -/
theorem c5_no_segments_synthesized_cue (r : ResultD)
    (h : r.segments = none ∨ r.segments = some []) :
    formatSrt r = "1\n00:00:00,000 --> " ++ formatSrtTime (metaDuration r 30) ++ "\n" ++
        pyStrip (r.text.getD "") ++ "\n\n" ∧
    formatVtt r = "WEBVTT\n\n00:00:00.000 --> " ++ formatVttTime (metaDuration r 30) ++ "\n" ++
        pyStrip (r.text.getD "") ++ "\n\n" ∧
    formatSrt sampleNoSegments = "1\n00:00:00,000 --> 00:00:10,000\nSingle line transcription\n\n" ∧
    formatVtt sampleNoSegments =
      "WEBVTT\n\n00:00:00.000 --> 00:00:10.000\nSingle line transcription\n\n" := by
  have hseg : r.segments.getD [] = [] := by rcases h with h | h <;> simp [h]
  refine ⟨?_, ?_, by decide, by decide⟩
  · simp [formatSrt, hseg, String.append_assoc]
  · simp [formatVtt, hseg, String.append_assoc]
    rfl

theorem c5_witness :
    (sampleNoSegments.segments = none ∨ sampleNoSegments.segments = some []) ∧
    formatSrt sampleNoSegments = "1\n00:00:00,000 --> " ++
      formatSrtTime (metaDuration sampleNoSegments 30) ++ "\n" ++
      pyStrip (sampleNoSegments.text.getD "") ++ "\n\n" :=
  ⟨Or.inl rfl, (c5_no_segments_synthesized_cue sampleNoSegments (Or.inl rfl)).1⟩

/-- C10: every formatter is total on dict-shaped results with missing keys:
missing text renders as the empty string, missing metadata fields as
`Unknown` / duration `0.00`, missing segment bounds as time zero, and a
missing duration in the segment-less SRT/VTT case defaults to 30 seconds. -/
theorem c10_formatters_default_missing_keys (now : String) :
    formatMarkdown emptyResult now =
      "# Transcription\n\n**File:** Unknown\n**Model:** Unknown\n**Language:** Unknown\n**Duration:** 0.00 seconds\n**Generated:** " ++
        now ++ "\n\n## Content\n\n\n" ∧
    formatText emptyResult now =
      "Transcription of: Unknown\nModel: Unknown\nLanguage: Unknown\nDuration: 0.00 seconds\nGenerated: " ++
        now ++ "\n\n" ++ ("=========================" ++ "=========================") ++ "\n\n" ∧
    formatSrt emptyResult = "1\n00:00:00,000 --> 00:00:30,000\n\n\n" ∧
    formatVtt emptyResult = "WEBVTT\n\n00:00:00.000 --> 00:00:30.000\n\n\n" ∧
    (∀ fmt, (fmt = "md" ∨ fmt = "txt" ∨ fmt = "json" ∨ fmt = "srt" ∨ fmt = "vtt") →
      (formatResultRun emptyResult now fmt).isSome = true) ∧
    (∀ i : ℕ, srtCue i ⟨none, none, none⟩ =
      toString i ++ "\n00:00:00,000 --> 00:00:00,000\n\n\n") ∧
    (∀ seg : Segment, seg.start = none → seg.«end» = none →
      vttCue seg = "00:00:00.000 --> 00:00:00.000\n" ++ pyStrip (seg.text.getD "") ++ "\n\n") ∧
    (∀ r : ResultD, r.segments = none → r.metadata = none →
      formatSrt r = "1\n00:00:00,000 --> 00:00:30,000\n" ++ pyStrip (r.text.getD "") ++ "\n\n") := by
  refine ⟨?_, ?_, by decide, by decide, ?_, ?_, ?_, ?_⟩
  · simp [formatMarkdown, emptyResult, emptyMetadata, pyFixed2, round2, pyStrip,
      String.append_assoc, show toString (0 : ℤ) = "0" from rfl]
  · simp [formatText, emptyResult, emptyMetadata, pyFixed2, round2, pyStrip,
      String.append_assoc, show toString (0 : ℤ) = "0" from rfl]
  · rintro fmt (h | h | h | h | h) <;> subst h <;> simp [formatResultRun]
  · intro i
    simp [srtCue, pyStrip, String.append_assoc,
      show formatSrtTime 0 = "00:00:00,000" from by decide]
  · intro seg h1 h2
    simp [vttCue, h1, h2, String.append_assoc,
      show formatVttTime 0 = "00:00:00.000" from by decide]
  · intro r h1 h2
    simp [formatSrt, h1, h2, metaDuration, emptyMetadata, String.append_assoc,
      show formatSrtTime 30 = "00:00:30,000" from by decide]

theorem c10_witness :
    formatSrt emptyResult = "1\n00:00:00,000 --> 00:00:30,000\n\n\n" ∧
    ("srt" = "md" ∨ "srt" = "txt" ∨ "srt" = "json" ∨ "srt" = "srt" ∨ "srt" = "vtt") ∧
    (formatResultRun emptyResult "T" "srt").isSome = true ∧
    emptyResult.segments = none ∧ emptyResult.metadata = none ∧
    formatSrt emptyResult =
      "1\n00:00:00,000 --> 00:00:30,000\n" ++ pyStrip (emptyResult.text.getD "") ++ "\n\n" :=
  ⟨(c10_formatters_default_missing_keys "T").2.2.1, by decide,
    (c10_formatters_default_missing_keys "T").2.2.2.2.1 "srt" (by decide), rfl, rfl,
    (c10_formatters_default_missing_keys "T").2.2.2.2.2.2.2 emptyResult rfl rfl⟩

theorem sliceChunks_congr {α : Type} (k : ℕ) (hk : 1 ≤ k) :
    ∀ (n m : ℕ) (files : List α), files.length ≤ n → files.length ≤ m →
      sliceChunks n files k = sliceChunks m files k := by
  intro n
  induction n with
  | zero =>
    intro m files h1 _
    have heq : files = [] := List.eq_nil_of_length_eq_zero (Nat.le_zero.mp h1)
    subst heq
    cases m <;> rfl
  | succ n ih =>
    intro m files h1 h2
    cases files with
    | nil => cases m <;> rfl
    | cons a as =>
      cases m with
      | zero => simp at h2
      | succ m =>
        show (a :: as).take k :: sliceChunks n ((a :: as).drop k) k =
          (a :: as).take k :: sliceChunks m ((a :: as).drop k) k
        congr 1
        apply ih
        · simp only [List.length_drop, List.length_cons] at h1 ⊢
          omega
        · simp only [List.length_drop, List.length_cons] at h2 ⊢
          omega

theorem batchFiles_cons {α : Type} (k : ℕ) (hk : 1 ≤ k) (a : α) (as : List α) :
    batchFiles (a :: as) k = (a :: as).take k :: batchFiles ((a :: as).drop k) k := by
  show sliceChunks (a :: as).length (a :: as) k = _
  have h1 : (a :: as).length = as.length + 1 := by simp
  rw [h1]
  show (a :: as).take k :: sliceChunks as.length ((a :: as).drop k) k = _
  congr 1
  apply sliceChunks_congr k hk
  · simp only [List.length_drop, List.length_cons]
    omega
  · exact le_rfl

theorem batchFiles_nil {α : Type} (k : ℕ) : batchFiles ([] : List α) k = [] := rfl

theorem batchFiles_spec {α : Type} (k : ℕ) (hk : 1 ≤ k) :
    ∀ (n : ℕ) (files : List α), files.length ≤ n →
      (batchFiles files k).flatten = files ∧
      (batchFiles files k).length = (files.length + k - 1) / k ∧
      (∀ g ∈ (batchFiles files k).dropLast, g.length = k) ∧
      (∀ g ∈ batchFiles files k, g ≠ [] ∧ g.length ≤ k) := by
  have harith : ∀ N : ℕ, 1 ≤ N → (N - k + k - 1) / k + 1 = (N + k - 1) / k := by
    intro N hN
    rcases Nat.le_total k N with hle | hlt
    · have h2 : N + k - 1 = (N - k + k - 1) + k := by omega
      rw [h2, Nat.add_div_right _ (by omega : 0 < k)]
    · have h3 : (N + k - 1) / k = 1 := Nat.div_eq_of_lt_le (by omega) (by omega)
      have h4 : (N - k + k - 1) / k = 0 := Nat.div_eq_of_lt (by omega)
      rw [h3, h4]
  intro n
  induction n with
  | zero =>
    intro files h1
    have heq : files = [] := List.eq_nil_of_length_eq_zero (Nat.le_zero.mp h1)
    subst heq
    have hdiv : ((([] : List α).length + k - 1)) / k = 0 := Nat.div_eq_of_lt (by simp; omega)
    exact ⟨rfl, by rw [hdiv]; rfl, by simp [batchFiles_nil], by simp [batchFiles_nil]⟩
  | succ n ih =>
    intro files h1
    cases files with
    | nil =>
      have hdiv : ((([] : List α).length + k - 1)) / k = 0 := Nat.div_eq_of_lt (by simp; omega)
      exact ⟨rfl, by rw [hdiv]; rfl, by simp [batchFiles_nil], by simp [batchFiles_nil]⟩
    | cons a as =>
      have hdl : ((a :: as).drop k).length ≤ n := by
        simp only [List.length_drop, List.length_cons] at h1 ⊢
        omega
      obtain ⟨ihj, ihl, ihd, ihb⟩ := ih ((a :: as).drop k) hdl
      rw [batchFiles_cons k hk]
      refine ⟨?_, ?_, ?_, ?_⟩
      · simp [List.flatten_cons, ihj]
      · simp only [List.length_cons, ihl, List.length_drop]
        exact harith (as.length + 1) (by omega)
      · intro g hg
        cases hrest : batchFiles ((a :: as).drop k) k with
        | nil => rw [hrest] at hg; simp at hg
        | cons b bs =>
          rw [hrest] at hg
          rw [List.dropLast_cons_of_ne_nil (by simp)] at hg
          rcases List.mem_cons.mp hg with hg | hg
          · subst hg
            have hne : (a :: as).drop k ≠ [] := by
              intro hcontra
              rw [hcontra] at hrest
              exact absurd hrest.symm (by simp [batchFiles_nil])
            have hklen : k < (a :: as).length := by
              by_contra hcon
              push_neg at hcon
              exact hne (List.drop_eq_nil_of_le hcon)
            simp only [List.length_take, List.length_cons]
            simp only [List.length_cons] at hklen
            omega
          · exact ihd g (by rw [hrest]; exact hg)
      · intro g hg
        rcases List.mem_cons.mp hg with hg | hg
        · subst hg
          refine ⟨?_, by simp [List.length_take]⟩
          simp [List.take_eq_nil_iff]
          omega
        · exact ihb g hg

/-- C6: for every list of N files and every batch size ≥ 1, `batch_files`
yields exactly ceil(N / batch_size) = (N + batch_size - 1) / batch_size
consecutive non-overlapping groups whose concatenation in yielded order is
the input list, every group except possibly the last has exactly
`batch_size` elements, every group is non-empty and no larger than
`batch_size`; 5 files with batch size 2 give group sizes [2, 2, 1]. -/
theorem c6_batch_files_partition (α : Type) (files : List α) (batch_size : ℕ)
    (hk : 1 ≤ batch_size) :
    (batchFiles files batch_size).flatten = files ∧
    (batchFiles files batch_size).length = (files.length + batch_size - 1) / batch_size ∧
    (∀ g ∈ (batchFiles files batch_size).dropLast, g.length = batch_size) ∧
    (∀ g ∈ batchFiles files batch_size, 1 ≤ g.length ∧ g.length ≤ batch_size) ∧
    (batchFiles ([0, 1, 2, 3, 4] : List ℕ) 2).map List.length = [2, 2, 1] := by
  obtain ⟨h1, h2, h3, h4⟩ := batchFiles_spec batch_size hk files.length files le_rfl
  refine ⟨h1, h2, h3, fun g hg => ?_, by decide⟩
  obtain ⟨hne, hle⟩ := h4 g hg
  exact ⟨List.length_pos.mpr hne, hle⟩

theorem c6_witness :
    1 ≤ 2 ∧ (batchFiles ([10, 20, 30, 40, 50] : List ℕ) 2).flatten = [10, 20, 30, 40, 50] :=
  ⟨by decide, (c6_batch_files_partition ℕ [10, 20, 30, 40, 50] 2 (by decide)).1⟩

/-- C7: output-path precedence — an explicit single output file together with
a configured single audio file wins regardless of the format tag or folder
settings; otherwise a configured output folder receives
`{stem}_transcription.{ext}`; otherwise the file goes beside the source. -/
theorem c7_output_path_precedence (config : TranscriptionConfig) (audio_path : List String)
    (output_format : String) :
    (∀ out, config.transcription_file = some out → config.audio_file.isSome = true →
      getOutputPath config audio_path output_format = out) ∧
    ((config.transcription_file = none ∨ config.audio_file = none) →
      (∀ folder, config.transcribe_folder = some folder →
        getOutputPath config audio_path output_format =
          folder ++ [pyStem (audio_path.getLastD "") ++ "_transcription." ++
            getExtensionForFormat output_format]) ∧
      (config.transcribe_folder = none →
        getOutputPath config audio_path output_format =
          audio_path.dropLast ++ [pyStem (audio_path.getLastD "") ++ "_transcription." ++
            getExtensionForFormat output_format])) := by
  constructor
  · intro out h1 h2
    simp [getOutputPath, h1, h2]
  · intro h
    constructor
    · intro folder hf
      rcases h with h | h <;> simp [getOutputPath, h, hf]
    · intro hf
      rcases h with h | h <;> simp [getOutputPath, h, hf]

theorem c7_witness :
    cfgSingle.transcription_file = some ["given", "out.txt"] ∧
    cfgSingle.audio_file.isSome = true ∧
    getOutputPath cfgSingle ["a.mp3"] "vtt" = ["given", "out.txt"] ∧
    (cfgFolder.transcription_file = none ∨ cfgFolder.audio_file = none) ∧
    cfgFolder.transcribe_folder = some ["outdir"] ∧
    getOutputPath cfgFolder ["music", "song.mp3"] "md" =
      ["outdir"] ++ [pyStem (["music", "song.mp3"].getLastD "") ++ "_transcription." ++
        getExtensionForFormat "md"] :=
  ⟨rfl, rfl,
    (c7_output_path_precedence cfgSingle ["a.mp3"] "vtt").1 ["given", "out.txt"] rfl rfl,
    Or.inl rfl, rfl,
    ((c7_output_path_precedence cfgFolder ["music", "song.mp3"] "md").2 (Or.inl rfl)).1
      ["outdir"] rfl⟩

/-- C9: every tag outside the five supported ones makes `format_result` fail
(the unsupported-format `ValueError`) while the path resolver's extension
mapping silently falls back to `txt`; each of the five supported tags maps to
the extension of the same name and formats successfully. -/
theorem c9_unsupported_format_split (tag : String) (r : ResultD) (now : String) :
    (tag ∉ (["md", "txt", "json", "srt", "vtt"] : List String) →
      (formatResultRun r now tag).isNone = true ∧ getExtensionForFormat tag = "txt") ∧
    (tag ∈ (["md", "txt", "json", "srt", "vtt"] : List String) →
      (formatResultRun r now tag).isSome = true ∧ getExtensionForFormat tag = tag) := by
  constructor
  · intro h
    simp only [List.mem_cons, List.not_mem_nil, or_false] at h
    push_neg at h
    obtain ⟨h1, h2, h3, h4, h5⟩ := h
    constructor
    · simp [formatResultRun, h1, h2, h3, h4, h5]
    · have b1 : (tag == "md") = false := beq_eq_false_iff_ne.mpr h1
      have b2 : (tag == "txt") = false := beq_eq_false_iff_ne.mpr h2
      have b3 : (tag == "json") = false := beq_eq_false_iff_ne.mpr h3
      have b4 : (tag == "srt") = false := beq_eq_false_iff_ne.mpr h4
      have b5 : (tag == "vtt") = false := beq_eq_false_iff_ne.mpr h5
      simp [getExtensionForFormat, format_extensions, List.lookup, b1, b2, b3, b4, b5]
  · intro h
    simp only [List.mem_cons, List.not_mem_nil, or_false] at h
    rcases h with h | h | h | h | h <;> subst h <;>
      exact ⟨by simp [formatResultRun], by decide⟩

theorem c9_witness :
    ("invalid" ∉ (["md", "txt", "json", "srt", "vtt"] : List String)) ∧
    (formatResultRun emptyResult "t" "invalid").isNone = true ∧
    getExtensionForFormat "invalid" = "txt" ∧
    ("srt" ∈ (["md", "txt", "json", "srt", "vtt"] : List String)) ∧
    (formatResultRun emptyResult "t" "srt").isSome = true ∧
    getExtensionForFormat "srt" = "srt" :=
  ⟨by decide,
    ((c9_unsupported_format_split "invalid" emptyResult "t").1 (by decide)).1,
    ((c9_unsupported_format_split "invalid" emptyResult "t").1 (by decide)).2,
    by decide,
    ((c9_unsupported_format_split "srt" emptyResult "t").2 (by decide)).1,
    ((c9_unsupported_format_split "srt" emptyResult "t").2 (by decide)).2⟩

theorem isFileAt_nil_path (cs : List FSEntry) : isFileAt cs [] = false := by
  induction cs with
  | nil => simp [isFileAt]
  | cons e rest ih => cases e <;> simp [isFileAt, ih]

theorem mem_listDescendants (cs : List FSEntry) :
    ∀ p, ((p, true) ∈ listDescendants cs) ↔ isFileAt cs p = true := by
  induction cs using listDescendants.induct with
  | case1 => intro p; simp [listDescendants, isFileAt]
  | case2 n rest ih =>
    intro p
    simp [listDescendants, isFileAt, ih p, Prod.ext_iff]
  | case3 n cs' rest ih1 ih2 =>
    intro p
    match p with
    | [] =>
      simp [listDescendants, isFileAt, isFileAt_nil_path, ih2, Prod.ext_iff]
    | [x] =>
      simp [listDescendants, isFileAt, isFileAt_nil_path, ih1, ih2, Prod.ext_iff]
    | x :: y :: ys =>
      simp [listDescendants, isFileAt, ih1, ih2, Prod.ext_iff, beq_iff_eq]
      tauto

theorem mem_listChildren_iff (cs : List FSEntry) (p : List String) :
    ((p, true) ∈ listChildren cs) ↔ ∃ n, p = [n] ∧ isFileAt cs [n] = true := by
  induction cs with
  | nil => simp [listChildren, isFileAt]
  | cons e rest ih =>
    cases e with
    | file m =>
      simp only [listChildren, List.map_cons, List.mem_cons, Prod.ext_iff, isFileAt,
        Bool.or_eq_true, beq_iff_eq] at ih ⊢
      constructor
      · rintro (⟨h1, _⟩ | h)
        · exact ⟨m, h1, Or.inl rfl⟩
        · obtain ⟨n, hn, hf⟩ := ih.mp h
          exact ⟨n, hn, Or.inr hf⟩
      · rintro ⟨n, hn, hf | hf⟩
        · subst hn
          exact Or.inl ⟨by rw [hf], trivial⟩
        · exact Or.inr (ih.mpr ⟨n, hn, hf⟩)
    | dir m cs' =>
      simp only [listChildren, List.map_cons, List.mem_cons, Prod.ext_iff, isFileAt,
        Bool.or_eq_true] at ih ⊢
      constructor
      · rintro (⟨_, h2⟩ | h)
        · exact absurd h2 (by simp)
        · obtain ⟨n, hn, hf⟩ := ih.mp h
          exact ⟨n, hn, Or.inr hf⟩
      · rintro ⟨n, hn, hf | hf⟩
        · exact absurd hf (by simp)
        · exact Or.inr (ih.mpr ⟨n, hn, hf⟩)

theorem charListLe_trans : ∀ (a b c : List Char),
    charListLe a b = true → charListLe b c = true → charListLe a c = true := by
  intro a
  induction a with
  | nil => intro b c _ _; simp [charListLe]
  | cons x xs ih =>
    intro b c hab hbc
    cases b with
    | nil => simp [charListLe] at hab
    | cons y ys =>
      cases c with
      | nil => simp [charListLe] at hbc
      | cons z zs =>
        simp only [charListLe] at hab hbc ⊢
        by_cases hxy : x < y
        · by_cases hyz : y < z
          · simp [lt_trans hxy hyz]
          · by_cases hzy : z < y
            · rw [if_neg hyz, if_pos hzy] at hbc
              simp at hbc
            · have heq : y = z := le_antisymm (le_of_not_lt hzy) (le_of_not_lt hyz)
              subst heq
              simp [hxy]
        · by_cases hyx : y < x
          · rw [if_neg hxy, if_pos hyx] at hab
            simp at hab
          · have heq : x = y := le_antisymm (le_of_not_lt hyx) (le_of_not_lt hxy)
            subst heq
            rw [if_neg hxy, if_neg hyx] at hab
            by_cases hxz : x < z
            · simp [hxz]
            · by_cases hzx : z < x
              · rw [if_neg hxz, if_pos hzx] at hbc
                simp at hbc
              · have heq2 : x = z := le_antisymm (le_of_not_lt hzx) (le_of_not_lt hxz)
                subst heq2
                rw [if_neg hxz, if_neg hzx] at hbc
                rw [if_neg hxz, if_neg hzx]
                exact ih ys zs hab hbc

theorem charListLe_total : ∀ (a b : List Char), (charListLe a b || charListLe b a) = true := by
  intro a
  induction a with
  | nil => intro b; simp [charListLe]
  | cons x xs ih =>
    intro b
    cases b with
    | nil => simp [charListLe]
    | cons y ys =>
      simp only [charListLe]
      by_cases hxy : x < y
      · simp [hxy]
      · by_cases hyx : y < x
        · simp [hxy, hyx]
        · rw [if_neg hxy, if_neg hyx, if_neg hyx, if_neg hxy]
          exact ih ys

theorem pathLe_trans (a b c : List String) :
    pathLe a b = true → pathLe b c = true → pathLe a c = true :=
  charListLe_trans _ _ _

theorem pathLe_total (a b : List String) : (pathLe a b || pathLe b a) = true :=
  charListLe_total _ _

/-- C8: directory discovery returns exactly the file entries (non-files
excluded) whose lowercased extension is recognized — immediate children when
non-recursive, all descendants when recursive — as a permutation of the
filtered glob enumeration, sorted by the lexicographic path order; the flat
example directory yields exactly [a.mp3, b.wav] and includes sub/d.m4a only
when recursive. -/
theorem c8_discovery_filtered_sorted (children : List FSEntry) (recursive : Bool) :
    List.Sorted (fun p q => pathLe p q = true) (findAudioFiles children recursive) ∧
    (findAudioFiles children recursive).Perm
      (((if recursive then listDescendants children else listChildren children).filter
        (fun e => e.2 && isAudioName (e.1.getLastD ""))).map Prod.fst) ∧
    (recursive = true → ∀ p, p ∈ findAudioFiles children recursive ↔
      (isFileAt children p = true ∧ isAudioName (p.getLastD "") = true)) ∧
    (recursive = false → ∀ p, p ∈ findAudioFiles children recursive ↔
      (∃ n, p = [n] ∧ isFileAt children [n] = true ∧ isAudioName n = true)) ∧
    findAudioFiles exampleTree false = [["a.mp3"], ["b.wav"]] ∧
    findAudioFiles exampleTree true = [["a.mp3"], ["b.wav"], ["sub", "d.m4a"]] := by
  refine ⟨?_, List.mergeSort_perm _ _, ?_, ?_, ?_, ?_⟩
  · exact List.sorted_mergeSort (fun a b c => pathLe_trans a b c) pathLe_total _
  · intro hrec p
    subst hrec
    unfold findAudioFiles
    rw [List.mem_mergeSort]
    simp only [if_pos rfl, List.mem_map, List.mem_filter, Bool.and_eq_true]
    constructor
    · rintro ⟨⟨q, b⟩, ⟨hmem, hb, haudio⟩, hq⟩
      simp only at hq hb haudio
      subst hq
      cases b with
      | true => exact ⟨(mem_listDescendants children q).mp hmem, haudio⟩
      | false => simp at hb
    · rintro ⟨hfile, haudio⟩
      exact ⟨(p, true), ⟨(mem_listDescendants children p).mpr hfile, rfl, haudio⟩, rfl⟩
  · intro hrec p
    subst hrec
    unfold findAudioFiles
    rw [List.mem_mergeSort]
    rw [show (if (false : Bool) = true then listDescendants children else listChildren children) =
      listChildren children from rfl]
    simp only [List.mem_map, List.mem_filter, Bool.and_eq_true]
    constructor
    · rintro ⟨⟨q, b⟩, ⟨hmem, hb, haudio⟩, hq⟩
      simp only at hq hb haudio
      subst hq
      cases b with
      | true =>
        obtain ⟨n, hn, hf⟩ := (mem_listChildren_iff children q).mp hmem
        subst hn
        exact ⟨n, rfl, hf, haudio⟩
      | false => simp at hb
    · rintro ⟨n, hn, hf, haudio⟩
      subst hn
      exact ⟨([n], true), ⟨(mem_listChildren_iff children [n]).mpr ⟨n, rfl, hf⟩, rfl, haudio⟩, rfl⟩
  · simp only [findAudioFiles, exampleTree, listChildren]
    decide
  · simp only [findAudioFiles, exampleTree, listDescendants]
    decide

theorem c8_witness :
    ["sub", "d.m4a"] ∈ findAudioFiles exampleTree true ↔
      (isFileAt exampleTree ["sub", "d.m4a"] = true ∧
        isAudioName (["sub", "d.m4a"].getLastD "") = true) :=
  (c8_discovery_filtered_sorted exampleTree true).2.2.1 rfl ["sub", "d.m4a"]

